import Mathlib

/-!
Verification of the `plain` HTTP utility library (routing/dispatch engine,
error normalizer, conditional static-file server).

Shallow embedding notes:

* `src/mod.ts` is the current module: `route` over a list of routes whose
  dispatch form is either a single handler or a per-method handler map.
* `src/unnamed/part_001` holds the historical variants cited by the claims:
  the error normalizer `toHttpError`/`toHttpErrorCode` (cited lines 325-356)
  and the static file server `isNotModified`/`serveFile`/`serveDir`
  (cited lines 147-242).
* JavaScript `unknown` thrown values are embedded as `JsValue`; each runtime
  error object carries exactly one most-derived class (`ErrClass`), and
  `instanceof C` for the leaf classes tested by the code is class equality.
* Opaque runtime collaborators (date formatting/parsing, content-type lookup,
  URL pathname access) are a parameter record `Js`; theorems quantify over it.
* Machine integers do not overflow in any embedded computation (sizes and
  millisecond timestamps are modelled as `Nat`/`Int`).
-/

/-- JavaScript string truthiness for a nullable string: `null`/`undefined`
and the empty string are falsy. -/
def truthyStr : Option String → Bool
  | none => false
  | some s => s ≠ ""

/-- JS `String.prototype.startsWith`, on character lists. -/
def strStartsWith (s pre : String) : Bool :=
  pre.toList.isPrefixOf s.toList

/-- JS `String.prototype.endsWith`, on character lists. -/
def strEndsWith (s suf : String) : Bool :=
  suf.toList.isSuffixOf s.toList

/-- JS `String.prototype.includes`, on character lists. -/
def strIncludes (s sub : String) : Bool :=
  decide (sub.toList <:+: s.toList)

/-- JS `value.slice(0, -1)`: the string without its last character. -/
def strDropLast (s : String) : String :=
  String.mk s.toList.dropLast

/-- JS `value.slice(2)`: the string without its first two characters. -/
def strDropTwo (s : String) : String :=
  String.mk (s.toList.drop 2)

/-- The relevant rows of the `@std/http` `STATUS_TEXT` reason-phrase table
(the codes constructed anywhere in this codebase). -/
def STATUS_TEXT (status : Nat) : String :=
  if status = 304 then "Not Modified"
  else if status = 308 then "Permanent Redirect"
  else if status = 400 then "Bad Request"
  else if status = 403 then "Forbidden"
  else if status = 404 then "Not Found"
  else if status = 405 then "Method Not Allowed"
  else if status = 409 then "Conflict"
  else if status = 422 then "Unprocessable Entity"
  else if status = 500 then "Internal Server Error"
  else if status = 502 then "Bad Gateway"
  else if status = 503 then "Service Unavailable"
  else if status = 504 then "Gateway Timeout"
  else ""

/-- An incoming HTTP request: method, url, and the (already merged,
case-insensitively keyed) header map of a `Headers` object. -/
structure Request where
  method : String
  url : String
  headers : List (String × String)
deriving DecidableEq, Repr

/-- JS `request.headers.get(name)`: case-insensitive header lookup. -/
def getHeader (request : Request) (name : String) : Option String :=
  (request.headers.find? (fun h => h.1.toLower == name.toLower)).map (·.2)

/-- The most-derived class of a non-`HttpError` runtime error object:
the native error classes and the `Deno.errors` classes tested by
`toHttpErrorCode`, plus `generic` for any other `Error`. -/
inductive ErrClass where
  | syntaxError
  | typeError
  | rangeError
  | uriError
  | evalError
  | addrNotAvailable
  | permissionDenied
  | notFound
  | alreadyExists
  | invalidData
  | connectionRefused
  | connectionReset
  | denoHttp
  | unexpectedEof
  | busy
  | timedOut
  | interrupted
  | connectionAborted
  | brokenPipe
  | generic
deriving DecidableEq, Repr

/-- A JavaScript value as it appears in `throw`/`cause` positions:
a `Request`, a plain `Error` object of some most-derived class with its
message, an `HttpError` (status, message, cause — `undef` when the
constructor received no cause), the value `undefined`, or any other
non-`Error` value.  The `HttpError` class also has an optional `init`
field; it is omitted here because every `HttpError` constructed by the
embedded code leaves it `undefined`. -/
inductive JsValue : Type where
  | request : Request → JsValue
  | plainError : ErrClass → String → JsValue
  | httpError : Nat → String → JsValue → JsValue
  | undef : JsValue
  | other : JsValue
deriving DecidableEq, Repr

/-- JS `error instanceof C` for the leaf error classes tested by
`toHttpErrorCode`: true exactly for a plain error object of that class. -/
def instanceOf (v : JsValue) (c : ErrClass) : Bool :=
  match v with
  | .plainError c2 _ => c2 == c
  | _ => false

/-- JS `error instanceof HttpError`. -/
def JsValue.isHttpError : JsValue → Bool
  | .httpError _ _ _ => true
  | _ => false

/-- JS `error instanceof Error` (every `HttpError` extends `Error`). -/
def JsValue.isError : JsValue → Bool
  | .plainError _ _ => true
  | .httpError _ _ _ => true
  | _ => false

/-- The `message` property of an `Error` object. -/
def JsValue.messageOf : JsValue → String
  | .plainError _ m => m
  | .httpError _ m _ => m
  | _ => ""

/-- Embedding of `toHttpErrorCode` (src/unnamed/part_001, lines 325-346):
the `instanceof` classification chain from error kind to status code. -/
def toHttpErrorCode (error : JsValue) : Nat :=
  if instanceOf error .syntaxError
      || instanceOf error .rangeError
      || instanceOf error .uriError
      || instanceOf error .evalError
      || instanceOf error .addrNotAvailable then 400
  else if instanceOf error .permissionDenied then 403
  else if instanceOf error .notFound then 404
  else if instanceOf error .alreadyExists then 409
  else if instanceOf error .invalidData then 422
  else if instanceOf error .connectionRefused
      || instanceOf error .connectionReset
      || instanceOf error .denoHttp
      || instanceOf error .unexpectedEof then 502
  else if instanceOf error .busy then 503
  else if instanceOf error .timedOut then 504
  else 500

/-- Embedding of `toHttpError` (src/unnamed/part_001, lines 348-356):
an `HttpError` is returned unchanged; any other value is wrapped in a new
`HttpError` whose message is the original `Error`'s message (the
constructor's `STATUS_TEXT` default when the input is not an `Error`)
and whose cause is the original value. -/
def toHttpError (error : JsValue) : JsValue :=
  if error.isHttpError then error
  else
    let status := toHttpErrorCode error
    .httpError status
      (if error.isError then error.messageOf else STATUS_TEXT status)
      error

/-- The result of a successful `URLPattern.exec`: the capture groups. -/
structure URLPatternResult where
  groups : List (String × String)
deriving DecidableEq, Repr

/-- A compiled `URLPattern`, kept opaque: `exec` maps a request URL to a
match result or `none`. -/
structure URLPattern where
  exec : String → Option URLPatternResult

/-- An HTTP request handler (src/mod.ts `Handler`).  Its value is the
eventual outcome of the returned `Response | Promise<Response>`: a
fulfilled value of type `α` or a thrown/rejected `JsValue`. -/
def Handler (α : Type) : Type :=
  Request → URLPatternResult → Except JsValue α

/-- A route definition (src/mod.ts `Route`): a pattern paired with either a
single handler for all methods or a per-method handler map (a JS object,
embedded as an association list keyed by method token). -/
inductive RouteDef (α : Type) : Type where
  | single (pattern : URLPattern) (handler : Handler α)
  | byMethod (pattern : URLPattern) (handlers : List (String × Handler α))

/-- The `pattern` field shared by both route forms. -/
def RouteDef.pattern {α : Type} : RouteDef α → URLPattern
  | .single p _ => p
  | .byMethod p _ => p

/-- Handler resolution in src/mod.ts `route`:
`"handler" in route ? route.handler : route.handlers[request.method]`
(a missing or `undefined` map entry is `none`). -/
def RouteDef.handlerFor {α : Type} (r : RouteDef α) (method : String) :
    Option (Handler α) :=
  match r with
  | .single _ h => some h
  | .byMethod _ hs => hs.lookup method

/-- Embedding of `route` (src/mod.ts, lines 306-322).  The outer `Except`
is the function's own (synchronous) behaviour: `.error` is a thrown
`HttpError` (404/405 with the request as cause), `.ok` is the matched
handler's outcome returned verbatim. -/
def route {α : Type} (routes : List (RouteDef α)) (request : Request) :
    Except JsValue (Except JsValue α) :=
  match routes with
  | [] =>
    .error (.httpError 404 (STATUS_TEXT 404) (.request request))
  | r :: rest =>
    match r.pattern.exec request.url with
    | none => route rest request
    | some m =>
      match r.handlerFor request.method with
      | none =>
        .error (.httpError 405 (STATUS_TEXT 405) (.request request))
      | some h => .ok (h request m)

/-- Opaque runtime collaborators consumed by the file server:
`Date.prototype.toUTCString`, `new Date(string).getTime()` (`none` models an
invalid date, whose time is `NaN`), the content-type-by-extension lookup,
`new URL(url).pathname`, and re-serialising a URL after assigning its
`pathname`. -/
structure Js where
  toUTCString : Int → String
  parseDate : String → Option Int
  contentType : String → Option String
  pathnameOf : String → String
  withPathname : String → String → String

/-- JS `value.trim()`. -/
def strTrim (s : String) : String := s.trim

/-- JS `value.split(/\s*,\s*/)`: split on commas, with whitespace adjacent
to each comma consumed by the separator. -/
def splitCommaWs (value : String) : List String :=
  let parts := value.splitOn ","
  parts.mapIdx (fun i p =>
    let p2 := if i = 0 then p else p.trimLeft
    if i + 1 = parts.length then p2 else p2.trimRight)

/-- Strip a weak-validator prefix: `tag.startsWith("W/") ? tag.slice(2) : tag`. -/
def stripWeak (tag : String) : String :=
  if strStartsWith tag "W/" then strDropTwo tag else tag

/-- Embedding of `ifNoneMatch` from `@std/http/etag` (the external ETag
comparison consumed by `isNotModified`): `true` means "serve new content",
`false` means the `If-None-Match` value matches the ETag. -/
def ifNoneMatch (value : Option String) (etag : Option String) : Bool :=
  if !truthyStr value || !truthyStr etag then true
  else
    let v := value.getD ""
    let e := etag.getD ""
    if strTrim v = "*" then false
    else
      let e2 := stripWeak e
      let tags := (splitCommaWs v).map stripWeak
      !(tags.contains e2)

/-- Embedding of `isNotModified` (src/unnamed/part_001, lines 147-164):
the 304 short-circuit decision of `serveFile`. -/
def isNotModified (js : Js) (request : Request) (mtime : Option Int)
    (etag : Option String) : Bool :=
  if !truthyStr etag && mtime.isNone then false
  else
    let inm := getHeader request "If-None-Match"
    if !(ifNoneMatch inm etag) then true
    else
      let ims := getHeader request "If-Modified-Since"
      !truthyStr inm && mtime.isSome && truthyStr ims &&
        (match mtime, ims with
         | some mt, some v =>
           (match js.parseDate v with
            | some t => decide (mt < t + 1000)
            | none => false)
         | _, _ => false)

/-- The slice of `Deno.FileInfo` read by the file server. -/
structure FileInfo where
  isFile : Bool
  size : Nat
  mtime : Option Int
deriving DecidableEq, Repr

/-- The file system as seen through `Deno.stat`: the file info for a path,
or the error the stat call rejects with (e.g. `Deno.errors.NotFound`). -/
def FS : Type := String → Except JsValue FileInfo

/-- JS `n.toString(16)` for a natural number. -/
def hexOfNat (n : Nat) : String := String.mk (Nat.toDigits 16 n)

/-- JS `n.toString(16)` for a (millisecond timestamp) integer. -/
def hexOfInt (t : Int) : String :=
  if t < 0 then "-" ++ hexOfNat t.natAbs else hexOfNat t.natAbs

/-- Embedding of `eTag` from `@std/http/etag` applied to a `Deno.FileInfo`:
a weak validator derived from the modification time and size, or `none`
when the file info carries no modification time. -/
def eTag (fi : FileInfo) : Option String :=
  match fi.mtime with
  | none => none
  | some t => some ("W/\"" ++ hexOfInt t ++ "-" ++ hexOfNat fi.size ++ "\"")

/-- Split a character list at every occurrence of a separator character
(the structural core of `String.split` on a single separator). -/
def splitOnChar (c : Char) : List Char → List (List Char)
  | [] => [[]]
  | ch :: rest =>
    match splitOnChar c rest with
    | [] => [[]]
    | g :: gs => if ch = c then [] :: g :: gs else (ch :: g) :: gs

/-- The path's segments between `/` separators. -/
def pathSegments (s : String) : List String :=
  (splitOnChar '/' s.toList).map String.mk

/-- Rejoin path segments with `/` separators. -/
def intercalateSlash : List String → String
  | [] => ""
  | [s] => s
  | s :: rest => s ++ "/" ++ intercalateSlash rest

/-- Embedding of `extname` from `@std/path`: the extension (with dot) of the
path's basename, empty for dotfiles and extensionless names. -/
def extname (path : String) : String :=
  let base := ((pathSegments path).getLastD "").toList
  let afterDot := base.reverse.takeWhile (· ≠ '.')
  if afterDot.length + 1 < base.length then
    String.mk ('.' :: afterDot.reverse)
  else ""

/-- An outgoing HTTP response, reduced to what the embedded code decides:
status, headers in insertion order, and whether a body stream is attached. -/
structure Resp where
  status : Nat
  headers : List (String × String)
  hasBody : Bool
deriving DecidableEq, Repr

/-- The headers computed unconditionally by `serveFile` (src/unnamed/part_001,
lines 177-190): `Accept-Ranges`/`Content-Length` always, then `Last-Modified`,
`ETag` and `Content-Type` when their (truthy) values are available. -/
def serveFileHeaders (js : Js) (fi : FileInfo) (filePath : String) :
    List (String × String) :=
  [("Accept-Ranges", "none"), ("Content-Length", toString fi.size)]
  ++ (match fi.mtime with
      | some t =>
        if js.toUTCString t ≠ "" then [("Last-Modified", js.toUTCString t)]
        else []
      | none => [])
  ++ (match eTag fi with
      | some e => if e ≠ "" then [("ETag", e)] else []
      | none => [])
  ++ (match js.contentType (extname filePath) with
      | some ct => if ct ≠ "" then [("Content-Type", ct)] else []
      | none => [])

/-- Embedding of `serveFile` (src/unnamed/part_001, lines 166-203).
`.error` is a rejection (its own `HttpError`s, or the `Deno.stat` failure
propagating).  The final `Deno.open` is modelled as succeeding; its failure
modes are outside every claim. -/
def serveFile (js : Js) (fs : FS) (request : Request) (filePath : String) :
    Except JsValue Resp :=
  let isGet := request.method == "GET"
  let isHead := request.method == "HEAD"
  if !isGet && !isHead then .error (.httpError 405 (STATUS_TEXT 405) .undef)
  else
    match fs filePath with
    | .error e => .error e
    | .ok fileInfo =>
      if !fileInfo.isFile then
        .error (.httpError 404 (STATUS_TEXT 404) .undef)
      else
        let headers := serveFileHeaders js fileInfo filePath
        if isNotModified js request fileInfo.mtime (eTag fileInfo) then
          .ok ⟨304, headers, false⟩
        else if isHead then .ok ⟨200, headers, false⟩
        else .ok ⟨200, headers, true⟩

/-- Segment processing of `normalizeString` from `@std/path/posix`:
empty and `.` segments are dropped, `..` pops the previous segment, and a
`..` with nothing to pop is kept for relative paths (`allowAbove`) and
dropped for absolute ones.  The accumulator holds segments reversed. -/
def normSegs (allowAbove : Bool) : List String → List String → List String
  | acc, [] => acc.reverse
  | acc, s :: rest =>
    if s = "" || s = "." then normSegs allowAbove acc rest
    else if s = ".." then
      match acc with
      | [] => normSegs allowAbove (if allowAbove then [".."] else []) rest
      | a :: tail =>
        if a = ".." then
          normSegs allowAbove (if allowAbove then s :: a :: tail else tail) rest
        else normSegs allowAbove tail rest
    else normSegs allowAbove (s :: acc) rest

namespace Posix

/-- Embedding of `normalize` from `@std/path/posix`: collapse repeated
separators, resolve `.`/`..` segments, preserve a trailing separator. -/
def normalize (path : String) : String :=
  if path = "" then "."
  else
    let isAbs := strStartsWith path "/"
    let trailingSep := strEndsWith path "/"
    let p0 := intercalateSlash (normSegs (!isAbs) [] (pathSegments path))
    let p1 := if p0 = "" && !isAbs then "." else p0
    let p2 := if p1 ≠ "" && trailingSep then p1 ++ "/" else p1
    if isAbs then "/" ++ p2 else p2

/-- Embedding of the two-argument `join` from `@std/path/posix`: concatenate
the non-empty parts with a separator and normalize; `.` if both are empty. -/
def joinTwo (a b : String) : String :=
  let joined :=
    if a ≠ "" then (if b ≠ "" then a ++ "/" ++ b else a)
    else (if b ≠ "" then b else "")
  if joined = "" then "." else normalize joined

end Posix

/-- JS `normalizedPath.replace(/^\/+/, "")` in `serveDir`. -/
def stripLeadingSlashes (s : String) : String :=
  String.mk (s.toList.dropWhile (· == '/'))

/-- Embedding of `serveDir` (src/unnamed/part_001, lines 211-242): method
check, 308 redirects for non-normalized and trailing-slash paths, the `..`
rejection, then delegation to `serveFile` on the joined path. -/
def serveDir (js : Js) (fs : FS) (request : Request) (rootFilePath : String) :
    Except JsValue Resp :=
  let isGet := request.method == "GET"
  let isHead := request.method == "HEAD"
  if !isGet && !isHead then .error (.httpError 405 (STATUS_TEXT 405) .undef)
  else
    let pathname := js.pathnameOf request.url
    let normalizedPath := Posix.normalize pathname
    if normalizedPath ≠ pathname then
      .ok ⟨308, [("Location", js.withPathname request.url normalizedPath)], false⟩
    else if strEndsWith pathname "/" then
      .ok ⟨308, [("Location", js.withPathname request.url (strDropLast pathname))], false⟩
    else
      let safePath := stripLeadingSlashes normalizedPath
      if strStartsWith safePath ".." || strIncludes safePath "/.." then
        .error (.httpError 403 (STATUS_TEXT 403) .undef)
      else
        serveFile js fs request (Posix.joinTwo rootFilePath safePath)

/-- Rendering of the not-modified decision as the specification words it:
(a) an `If-None-Match` validator is supplied (truthy) and matches the
computed ETag, or (b) no `If-None-Match` was supplied, `If-Modified-Since`
is present, and the modification time is under the validator timestamp
plus the 1-second tolerance; with no validator the content is modified. -/
def notModifiedSpec (js : Js) (request : Request) (mtime : Option Int)
    (etag : Option String) : Bool :=
  let inm := getHeader request "If-None-Match"
  let ims := getHeader request "If-Modified-Since"
  (truthyStr inm && !(ifNoneMatch inm etag))
  || (!truthyStr inm && truthyStr ims &&
      (match mtime, ims with
       | some mt, some v =>
         (match js.parseDate v with
          | some t => decide (mt < t + 1000)
          | none => false)
       | _, _ => false))

/-- Rendering of "begins with, or contains, a parent-directory (`..`)
segment" as the specification words it: the path is `..`, starts with the
segment `../`, contains `/../`, or ends with `/..`. -/
def hasParentSegment (p : String) : Bool :=
  p == ".." || strStartsWith p "../" || strIncludes p "/../"
    || strEndsWith p "/.."

/-- A pattern matching only `http://localhost/test` (claim C1 inputs). -/
def c1pat : URLPattern :=
  ⟨fun u => if u == "http://localhost/test" then some ⟨[]⟩ else none⟩

/-- A route whose pattern never matches (claim C1 inputs). -/
def c1pre : List (RouteDef Nat) := [.byMethod ⟨fun _ => none⟩ []]

/-- The first `/test` route: a GET handler only (claim C1 inputs). -/
def c1r : RouteDef Nat := .byMethod c1pat [("GET", fun _ _ => .ok 1)]

/-- A later `/test` route that does handle POST (claim C1 inputs). -/
def c1post : List (RouteDef Nat) := [.byMethod c1pat [("POST", fun _ _ => .ok 2)]]

/-- A POST request to `/test` (claim C1 inputs). -/
def c1req : Request := ⟨"POST", "http://localhost/test", []⟩

/-- A route with an empty method map (claim C2 inputs). -/
def c2route : RouteDef Nat :=
  .byMethod ⟨fun u => if u == "http://localhost/e" then some ⟨[]⟩ else none⟩ []

/-- The route table holding only `c2route` (claim C2 inputs). -/
def c2routes : List (RouteDef Nat) := [c2route]

/-- A GET request matched by the empty-method-map route (claim C2 inputs). -/
def c2req : Request := ⟨"GET", "http://localhost/e", []⟩

/-- A handler that fails with a (non-HttpError) `TypeError` (claim C3 inputs). -/
def c3handler : Handler Nat :=
  fun _ _ => .error (.plainError .typeError "boom")

/-- A catch-all route whose GET handler fails (claim C3 inputs). -/
def c3r : RouteDef Nat := .byMethod ⟨fun _ => some ⟨[]⟩⟩ [("GET", c3handler)]

/-- The route table holding only `c3r` (claim C3 inputs). -/
def c3routes : List (RouteDef Nat) := [c3r]

/-- A GET request reaching the failing handler (claim C3 inputs). -/
def c3req : Request := ⟨"GET", "http://localhost/x", []⟩

/-- Concrete runtime collaborators for the claim C7 witness. -/
def c7js : Js := ⟨fun t => toString t, fun _ => none, fun _ => none, id, fun _ p => p⟩

/-- A regular 42-byte file modified at millisecond 1000 (claim C7 inputs). -/
def c7fi : FileInfo := ⟨true, 42, some 1000⟩

/-- A file system resolving every path to `c7fi` (claim C7 inputs). -/
def c7fs : FS := fun _ => .ok c7fi

/-- A plain GET request without validators (claim C7 inputs). -/
def c7req : Request := ⟨"GET", "http://localhost/f.txt", []⟩

/-- Runtime collaborators whose URL pathname is the non-normalized,
traversal-carrying `..//x` (claim C8 counterexample inputs). -/
def c8js : Js :=
  ⟨fun t => toString t, fun _ => none, fun _ => none, fun _ => "..//x", fun _ p => p⟩

/-- A file system that would reject every stat call (claim C8 inputs);
the counterexample result does not depend on it. -/
def c8fs : FS := fun _ => .error .other

/-- A GET request (claim C8 counterexample inputs). -/
def c8req : Request := ⟨"GET", "u", []⟩

/-- Runtime collaborators whose URL pathname is the already-canonical,
traversal-carrying `../x` (claim C8 witness inputs). -/
def c8wjs : Js :=
  ⟨fun t => toString t, fun _ => none, fun _ => none, fun _ => "../x", fun _ p => p⟩

/-- Runtime collaborators whose URL pathname is `/a//b`, which normalization
collapses to `/a/b` (claim C9 witness inputs). -/
def c9js : Js :=
  ⟨fun t => toString t, fun _ => none, fun _ => none, fun _ => "/a//b", fun _ p => p⟩

/-- A file system for the claim C9 witness; the redirect does not touch it. -/
def c9fs : FS := fun _ => .error .other

/-- A GET request (claim C9 witness inputs). -/
def c9req : Request := ⟨"GET", "u", []⟩

/-- Runtime collaborators that parse every date string to millisecond 0
(claim C10 witness inputs). -/
def c10js : Js :=
  ⟨fun t => toString t, fun _ => some 0, fun _ => none, id, fun _ p => p⟩

/-- A regular file with no modification time, hence no computable ETag
(claim C10 inputs). -/
def c10fi : FileInfo := ⟨true, 5, none⟩

/-- A file system resolving every path to `c10fi` (claim C10 inputs). -/
def c10fs : FS := fun _ => .ok c10fi

/-- A GET request that supplies both conditional validators
(claim C10 witness inputs). -/
def c10req : Request :=
  ⟨"GET", "http://localhost/f",
    [("if-none-match", "\"x\""), ("if-modified-since", "Mon, 01 Jan 2024 00:00:00 GMT")]⟩

/-- Routes whose patterns all fail to match are skipped without effect. -/
theorem route_append_none {α : Type} (pre rest : List (RouteDef α))
    (req : Request) (h : ∀ r2 ∈ pre, r2.pattern.exec req.url = none) :
    route (pre ++ rest) req = route rest req := by
  induction pre with
  | nil => rfl
  | cons r pre ih =>
    have hr : r.pattern.exec req.url = none := h r (List.mem_cons_self r pre)
    have h2 : ∀ r2 ∈ pre, r2.pattern.exec req.url = none :=
      fun r2 hr2 => h r2 (List.mem_cons_of_mem r hr2)
    simp only [List.cons_append, route, hr]
    exact ih h2

/-- Unfolding of `route` at a route whose pattern matches. -/
theorem route_cons_some {α : Type} (r : RouteDef α) (rest : List (RouteDef α))
    (req : Request) (m : URLPatternResult)
    (hm : r.pattern.exec req.url = some m) :
    route (r :: rest) req =
      (match r.handlerFor req.method with
       | none => .error (.httpError 405 (STATUS_TEXT 405) (.request req))
       | some h => .ok (h req m)) := by
  simp only [route, hm]

/-- Claim C1: `route` scans the routes in declaration order and commits to
the first route whose pattern matches the request URL — method resolution
(including any 405 failure) happens at that route, and the result does not
depend on the routes after it, even when a later overlapping route could
handle the method. -/
theorem route_first_match_wins {α : Type} (pre post : List (RouteDef α))
    (r : RouteDef α) (req : Request) (m : URLPatternResult)
    (hpre : ∀ r2 ∈ pre, r2.pattern.exec req.url = none)
    (hm : r.pattern.exec req.url = some m) :
    route (pre ++ r :: post) req =
      (match r.handlerFor req.method with
       | none => .error (.httpError 405 (STATUS_TEXT 405) (.request req))
       | some h => .ok (h req m)) := by
  rw [route_append_none pre (r :: post) req hpre]
  exact route_cons_some r post req m hm

/-- Witness for C1: the first `/test` route (GET only) shadows the later
`/test` route that does handle POST, so a POST request yields 405. -/
theorem route_first_match_wins_witness :
    route (c1pre ++ c1r :: c1post) c1req =
      .error (.httpError 405 (STATUS_TEXT 405) (.request c1req)) := by
  have h := route_first_match_wins c1pre c1post c1r c1req ⟨[]⟩
    (by intro r2 h2; simp only [c1pre, List.mem_singleton] at h2; subst h2; rfl) rfl
  exact h

/-- Unfolding of `route` at a route whose pattern does not match. -/
theorem route_cons_nomatch {α : Type} (r : RouteDef α) (rest : List (RouteDef α))
    (req : Request) (hx : r.pattern.exec req.url = none) :
    route (r :: rest) req = route rest req := by
  simp only [route, hx]

/-- Unfolding of `route` at a matching route with no handler for the method. -/
theorem route_cons_no_handler {α : Type} (r : RouteDef α)
    (rest : List (RouteDef α)) (req : Request) (m : URLPatternResult)
    (hm : r.pattern.exec req.url = some m)
    (hh : r.handlerFor req.method = none) :
    route (r :: rest) req =
      .error (.httpError 405 (STATUS_TEXT 405) (.request req)) := by
  rw [route_cons_some r rest req m hm, hh]

/-- Unfolding of `route` at a matching route with a handler for the method. -/
theorem route_cons_handler {α : Type} (r : RouteDef α)
    (rest : List (RouteDef α)) (req : Request) (m : URLPatternResult)
    (h : Handler α) (hm : r.pattern.exec req.url = some m)
    (hh : r.handlerFor req.method = some h) :
    route (r :: rest) req = .ok (h req m) := by
  rw [route_cons_some r rest req m hm, hh]

/-- The 404 outcome characterizes "no pattern matches". -/
theorem route_eq_404_iff {α : Type} (routes : List (RouteDef α)) (req : Request) :
    route routes req = .error (.httpError 404 (STATUS_TEXT 404) (.request req))
      ↔ ∀ r2 ∈ routes, r2.pattern.exec req.url = none := by
  induction routes with
  | nil => simp [route]
  | cons r rest ih =>
    cases hx : r.pattern.exec req.url with
    | none =>
      rw [route_cons_nomatch r rest req hx, ih]
      constructor
      · intro h r2 h2
        rcases List.mem_cons.mp h2 with h3 | h3
        · rw [h3]; exact hx
        · exact h r2 h3
      · intro h r2 h2
        exact h r2 (List.mem_cons_of_mem r h2)
    | some m =>
      cases hh : r.handlerFor req.method with
      | none =>
        rw [route_cons_no_handler r rest req m hx hh]
        constructor
        · intro habs
          simp only [Except.error.injEq, JsValue.httpError.injEq] at habs
          omega
        · intro h
          have h2 := h r (List.mem_cons_self r rest)
          rw [hx] at h2
          cases h2
      | some hd =>
        rw [route_cons_handler r rest req m hd hx hh]
        constructor
        · intro habs
          cases habs
        · intro h
          have h2 := h r (List.mem_cons_self r rest)
          rw [hx] at h2
          cases h2

/-- The 405 outcome characterizes "the first structurally matching route has
no handler for the request's method". -/
theorem route_eq_405_iff {α : Type} (routes : List (RouteDef α)) (req : Request) :
    route routes req = .error (.httpError 405 (STATUS_TEXT 405) (.request req))
      ↔ ∃ pre r2 post, routes = pre ++ r2 :: post
          ∧ (∀ r3 ∈ pre, r3.pattern.exec req.url = none)
          ∧ (∃ m, r2.pattern.exec req.url = some m)
          ∧ r2.handlerFor req.method = none := by
  induction routes with
  | nil =>
    constructor
    · intro habs
      simp only [route, Except.error.injEq, JsValue.httpError.injEq] at habs
      omega
    · rintro ⟨pre, r2, post, heq, -, -, -⟩
      cases pre <;> simp at heq
  | cons r rest ih =>
    cases hx : r.pattern.exec req.url with
    | none =>
      rw [route_cons_nomatch r rest req hx, ih]
      constructor
      · rintro ⟨pre, r2, post, heq, hpre, hm, hh⟩
        refine ⟨r :: pre, r2, post, by rw [heq, List.cons_append], ?_, hm, hh⟩
        intro r3 h3
        rcases List.mem_cons.mp h3 with h4 | h4
        · rw [h4]; exact hx
        · exact hpre r3 h4
      · rintro ⟨pre, r2, post, heq, hpre, hm, hh⟩
        cases pre with
        | nil =>
          simp only [List.nil_append, List.cons.injEq] at heq
          obtain ⟨h5, h6⟩ := heq
          rcases hm with ⟨m, hm⟩
          rw [← h5, hx] at hm
          cases hm
        | cons p pre2 =>
          simp only [List.cons_append, List.cons.injEq] at heq
          obtain ⟨h5, h6⟩ := heq
          exact ⟨pre2, r2, post, h6, fun r3 h3 => hpre r3 (List.mem_cons_of_mem p h3), hm, hh⟩
    | some m =>
      cases hh : r.handlerFor req.method with
      | none =>
        rw [route_cons_no_handler r rest req m hx hh]
        constructor
        · intro h2
          exact ⟨[], r, rest, rfl, by simp, ⟨m, hx⟩, hh⟩
        · intro h2
          rfl
      | some hd =>
        rw [route_cons_handler r rest req m hd hx hh]
        constructor
        · intro habs
          cases habs
        · rintro ⟨pre, r2, post, heq, hpre, hm2, hh2⟩
          cases pre with
          | nil =>
            simp only [List.nil_append, List.cons.injEq] at heq
            obtain ⟨h5, h6⟩ := heq
            rw [← h5, hh] at hh2
            cases hh2
          | cons p pre2 =>
            simp only [List.cons_append, List.cons.injEq] at heq
            obtain ⟨h5, h6⟩ := heq
            have h7 := hpre r (by rw [h5]; exact List.mem_cons_self p pre2)
            rw [hx] at h7
            cases h7

/-- A first-matching route with a resolved handler yields its outcome. -/
theorem route_ok_first_match {α : Type} (pre post : List (RouteDef α))
    (r : RouteDef α) (req : Request) (m : URLPatternResult) (h : Handler α)
    (hpre : ∀ r3 ∈ pre, r3.pattern.exec req.url = none)
    (hm : r.pattern.exec req.url = some m)
    (hh : r.handlerFor req.method = some h) :
    route (pre ++ r :: post) req = .ok (h req m) := by
  rw [route_append_none pre (r :: post) req hpre]
  exact route_cons_handler r post req m h hm hh

/-- Claim C2: `route` throws an `HttpError` 404 with the request as cause
exactly when no route's pattern matches the request URL (so always for the
empty table, the iff's right side being vacuous); it throws 405 with the
request as cause exactly when the first pattern-matching route has no
handler for the request's method (so a matched route with an empty method
map yields 405, not 404); otherwise it returns the matched handler's
outcome unchanged. -/
theorem route_dispatch_contract {α : Type} (routes : List (RouteDef α))
    (req : Request) :
    (route routes req = .error (.httpError 404 (STATUS_TEXT 404) (.request req))
       ↔ ∀ r2 ∈ routes, r2.pattern.exec req.url = none)
  ∧ (route routes req = .error (.httpError 405 (STATUS_TEXT 405) (.request req))
       ↔ ∃ pre r2 post, routes = pre ++ r2 :: post
           ∧ (∀ r3 ∈ pre, r3.pattern.exec req.url = none)
           ∧ (∃ m, r2.pattern.exec req.url = some m)
           ∧ r2.handlerFor req.method = none)
  ∧ (∀ (pre post : List (RouteDef α)) (r2 : RouteDef α)
        (m : URLPatternResult) (h : Handler α),
       routes = pre ++ r2 :: post
       → (∀ r3 ∈ pre, r3.pattern.exec req.url = none)
       → r2.pattern.exec req.url = some m
       → r2.handlerFor req.method = some h
       → route routes req = .ok (h req m)) := by
  refine ⟨route_eq_404_iff routes req, route_eq_405_iff routes req, ?_⟩
  intro pre post r2 m h heq hpre hm hh
  rw [heq]
  exact route_ok_first_match pre post r2 req m h hpre hm hh

/-- Witness for C2: the `/e` route matches structurally but its method map
is empty, so a GET request yields 405, not 404. -/
theorem route_dispatch_contract_witness :
    route c2routes c2req =
      .error (.httpError 405 (STATUS_TEXT 405) (.request c2req)) := by
  exact (route_dispatch_contract c2routes c2req).2.1.mpr
    ⟨[], c2route, [], rfl, by simp, ⟨⟨[]⟩, rfl⟩, rfl⟩

/-- Counterexample to C3 as stated: a matched handler that fails with a
(non-HttpError) `TypeError` has its failure leave `route` completely
unchanged — the value that leaves the dispatcher is not an `HttpError`
and differs from what the Error Normalizer would produce for it. -/
theorem route_handler_failure_unwrapped :
    route c3routes c3req = .ok (.error (.plainError .typeError "boom"))
  ∧ (JsValue.plainError .typeError "boom").isHttpError = false
  ∧ JsValue.plainError .typeError "boom"
      ≠ toHttpError (.plainError .typeError "boom") := by
  refine ⟨rfl, rfl, ?_⟩
  decide

/-- Claim C3 as amended: `route` returns the matched handler's outcome
verbatim — an `HttpError` failure propagates unchanged, and so does any
other failure; the dispatcher applies no normalization (`toHttpError` is a
separate function left to the caller). -/
theorem route_propagates_handler_outcome {α : Type}
    (pre post : List (RouteDef α)) (r : RouteDef α) (req : Request)
    (m : URLPatternResult) (h : Handler α) (e : JsValue)
    (hpre : ∀ r2 ∈ pre, r2.pattern.exec req.url = none)
    (hm : r.pattern.exec req.url = some m)
    (hh : r.handlerFor req.method = some h)
    (hfail : h req m = .error e) :
    route (pre ++ r :: post) req = .ok (.error e) := by
  rw [route_append_none pre (r :: post) req hpre,
    route_cons_handler r post req m h hm hh, hfail]

/-- Witness for C3's amended statement: the failing `TypeError` handler's
outcome propagates through `route` untouched. -/
theorem route_propagates_handler_outcome_witness :
    route c3routes c3req = .ok (.error (.plainError .typeError "boom")) := by
  have h := route_propagates_handler_outcome [] [] c3r c3req ⟨[]⟩ c3handler
    (.plainError .typeError "boom") (by simp) rfl rfl rfl
  exact h

/-- Counterexample to C4 as stated: the classification chain at the claimed
source lines does not test `TypeError`, so a type-mismatch error is wrapped
as 500, not as the claimed 400. -/
theorem toHttpError_typeError_is_500 :
    toHttpError (.plainError .typeError "boom")
      = .httpError 500 "boom" (.plainError .typeError "boom")
  ∧ (500 : Nat) ≠ 400 := by
  exact ⟨rfl, by decide⟩

/-- Claim C4 as amended (type-mismatch errors are unclassified and map to
500): `toHttpError` classifies every non-HttpError input purely by its
kind — syntax, out-of-range, invalid-URI, evaluation and
address-unavailable faults to 400; permission denied to 403; not found to
404; already-exists to 409; invalid data to 422; connection
refused/reset, protocol faults and unexpected end-of-stream to 502; busy
to 503; timed out to 504; every unclassified error (including
type-mismatch, interrupted, connection-aborted and broken-pipe) to 500 —
with the original message (or the default reason phrase when the input
carries none) and the original value as cause. -/
theorem toHttpError_classification (msg : String) (req : Request) :
    toHttpError (.plainError .syntaxError msg)
      = .httpError 400 msg (.plainError .syntaxError msg)
  ∧ toHttpError (.plainError .rangeError msg)
      = .httpError 400 msg (.plainError .rangeError msg)
  ∧ toHttpError (.plainError .uriError msg)
      = .httpError 400 msg (.plainError .uriError msg)
  ∧ toHttpError (.plainError .evalError msg)
      = .httpError 400 msg (.plainError .evalError msg)
  ∧ toHttpError (.plainError .addrNotAvailable msg)
      = .httpError 400 msg (.plainError .addrNotAvailable msg)
  ∧ toHttpError (.plainError .permissionDenied msg)
      = .httpError 403 msg (.plainError .permissionDenied msg)
  ∧ toHttpError (.plainError .notFound msg)
      = .httpError 404 msg (.plainError .notFound msg)
  ∧ toHttpError (.plainError .alreadyExists msg)
      = .httpError 409 msg (.plainError .alreadyExists msg)
  ∧ toHttpError (.plainError .invalidData msg)
      = .httpError 422 msg (.plainError .invalidData msg)
  ∧ toHttpError (.plainError .connectionRefused msg)
      = .httpError 502 msg (.plainError .connectionRefused msg)
  ∧ toHttpError (.plainError .connectionReset msg)
      = .httpError 502 msg (.plainError .connectionReset msg)
  ∧ toHttpError (.plainError .denoHttp msg)
      = .httpError 502 msg (.plainError .denoHttp msg)
  ∧ toHttpError (.plainError .unexpectedEof msg)
      = .httpError 502 msg (.plainError .unexpectedEof msg)
  ∧ toHttpError (.plainError .busy msg)
      = .httpError 503 msg (.plainError .busy msg)
  ∧ toHttpError (.plainError .timedOut msg)
      = .httpError 504 msg (.plainError .timedOut msg)
  ∧ toHttpError (.plainError .typeError msg)
      = .httpError 500 msg (.plainError .typeError msg)
  ∧ toHttpError (.plainError .interrupted msg)
      = .httpError 500 msg (.plainError .interrupted msg)
  ∧ toHttpError (.plainError .connectionAborted msg)
      = .httpError 500 msg (.plainError .connectionAborted msg)
  ∧ toHttpError (.plainError .brokenPipe msg)
      = .httpError 500 msg (.plainError .brokenPipe msg)
  ∧ toHttpError (.plainError .generic msg)
      = .httpError 500 msg (.plainError .generic msg)
  ∧ toHttpError (.request req)
      = .httpError 500 (STATUS_TEXT 500) (.request req)
  ∧ toHttpError .other = .httpError 500 (STATUS_TEXT 500) .other
  ∧ toHttpError .undef = .httpError 500 (STATUS_TEXT 500) .undef := by
  exact ⟨rfl, rfl, rfl, rfl, rfl, rfl, rfl, rfl, rfl, rfl, rfl, rfl, rfl,
    rfl, rfl, rfl, rfl, rfl, rfl, rfl, rfl, rfl, rfl⟩

/-- Claim C5: `toHttpError` returns an `HttpError` input itself, unchanged,
and is therefore idempotent on every error value. -/
theorem toHttpError_idempotent :
    (∀ (s : Nat) (m : String) (c : JsValue),
       toHttpError (.httpError s m c) = .httpError s m c)
  ∧ (∀ e : JsValue, toHttpError (toHttpError e) = toHttpError e) := by
  constructor
  · intro s m c
    rfl
  · intro e
    cases e <;> rfl

/-- A matching `ifNoneMatch` verdict needs both a truthy header value and a
truthy ETag. -/
theorem ifNoneMatch_false_truthy (v e : Option String)
    (h : ifNoneMatch v e = false) :
    truthyStr v = true ∧ truthyStr e = true := by
  cases hv : truthyStr v with
  | false =>
    unfold ifNoneMatch at h
    rw [hv] at h
    simp at h
  | true =>
    cases he : truthyStr e with
    | false =>
      unfold ifNoneMatch at h
      rw [hv, he] at h
      simp at h
    | true => exact ⟨rfl, rfl⟩

/-- Claim C6: the `serveFile` not-modified decision holds exactly when
either (a) a supplied `If-None-Match` validator matches the computed ETag
(the ETag taking precedence), or (b) no `If-None-Match` was supplied,
`If-Modified-Since` is present, and the modification time is under that
timestamp plus the 1-second tolerance; with no validator supplied the
content is always treated as modified. -/
theorem isNotModified_matches_spec (js : Js) (req : Request)
    (mtime : Option Int) (etag : Option String) :
    isNotModified js req mtime etag = notModifiedSpec js req mtime etag := by
  unfold isNotModified notModifiedSpec
  cases hnm : ifNoneMatch (getHeader req "If-None-Match") etag with
  | false =>
    obtain ⟨hv, he⟩ := ifNoneMatch_false_truthy _ _ hnm
    simp [he, hv, hnm]
  | true =>
    cases he : truthyStr etag with
    | true =>
      simp only [he, hnm]
      cases mtime <;> simp
    | false =>
      cases mtime with
      | none => simp [he, hnm]
      | some mt => simp [he, hnm]

/-- Claim C7: for a GET or HEAD request resolving to a regular file,
`serveFile` returns the unconditionally computed headers with status 304
and no body when the not-modified decision holds, and with status 200
otherwise; a HEAD request never carries a body, and a GET request carries
the file body exactly when the not-modified decision is false. -/
theorem serveFile_conditional_get_head (js : Js) (fs : FS) (req : Request)
    (filePath : String) (fi : FileInfo)
    (hm : req.method = "GET" ∨ req.method = "HEAD")
    (hstat : fs filePath = .ok fi) (hfile : fi.isFile = true) :
    serveFile js fs req filePath =
      .ok ⟨(if isNotModified js req fi.mtime (eTag fi) then 304 else 200),
           serveFileHeaders js fi filePath,
           (req.method == "GET" && !(isNotModified js req fi.mtime (eTag fi)))⟩ := by
  rcases hm with h | h <;>
    simp only [serveFile, h, hstat, hfile] <;>
    cases hnm : isNotModified js req fi.mtime (eTag fi) <;>
    simp [hnm]

/-- Witness for C7: a GET request without validators on a regular file is
served in full (status 200, computed headers, body attached). -/
theorem serveFile_conditional_get_head_witness :
    serveFile c7js c7fs c7req "f.txt"
      = .ok ⟨200, serveFileHeaders c7js c7fi "f.txt", true⟩ := by
  have h := serveFile_conditional_get_head c7js c7fs c7req "f.txt" c7fi
    (Or.inl rfl) rfl rfl
  exact h

/-- Containing a parent-directory segment (as the specification words it)
implies the weaker string test `serveDir` actually performs. -/
theorem hasParentSegment_code_check (p : String)
    (h : hasParentSegment p = true) :
    (strStartsWith p ".." || strIncludes p "/..") = true := by
  unfold hasParentSegment at h
  simp only [Bool.or_eq_true] at h
  rcases h with ((h1 | h2) | h3) | h4
  · have hp : p = ".." := eq_of_beq h1
    subst hp
    decide
  · unfold strStartsWith at h2 ⊢
    have h5 : ("../".toList) <+: p.toList := List.isPrefixOf_iff_prefix.mp h2
    have h6 : ("..".toList) <+: p.toList :=
      List.IsPrefix.trans (by decide) h5
    rw [Bool.or_eq_true]
    exact Or.inl (List.isPrefixOf_iff_prefix.mpr h6)
  · unfold strIncludes at h3 ⊢
    have h5 : ("/../".toList) <:+: p.toList := of_decide_eq_true h3
    have h6 : ("/..".toList) <:+: p.toList :=
      List.IsInfix.trans (by decide) h5
    rw [Bool.or_eq_true]
    exact Or.inr (decide_eq_true h6)
  · unfold strEndsWith at h4
    unfold strIncludes
    have h5 : ("/..".toList) <:+ p.toList := List.isSuffixOf_iff_suffix.mp h4
    rw [Bool.or_eq_true]
    exact Or.inr (decide_eq_true h5.isInfix)

/-- Counterexample to C8 as stated: for a GET request whose URL pathname is
`..//x`, the normalized relative path `../x` begins with a parent-directory
segment, yet `serveDir` issues a 308 redirect (normalization changed the
path) instead of failing with 403. -/
theorem serveDir_redirect_preempts_traversal_check :
    serveDir c8js c8fs c8req "." = .ok ⟨308, [("Location", "../x")], false⟩
  ∧ hasParentSegment
      (stripLeadingSlashes (Posix.normalize (c8js.pathnameOf c8req.url)))
      = true := by
  exact ⟨rfl, rfl⟩

/-- Claim C8 as amended: for a GET or HEAD request whose pathname is already
canonical (fixed by normalization, no trailing separator), if the relative
path obtained by stripping leading separators from the normalized pathname
begins with, or contains, a parent-directory segment, then `serveDir`
fails with `HttpError` 403 — for every file system, i.e. without reaching
file I/O; the check happens on the normalized path. -/
theorem serveDir_traversal_403 (js : Js) (fs : FS) (req : Request)
    (root : String)
    (hm : req.method = "GET" ∨ req.method = "HEAD")
    (hcanon : Posix.normalize (js.pathnameOf req.url) = js.pathnameOf req.url)
    (hslash : strEndsWith (js.pathnameOf req.url) "/" = false)
    (htrav : hasParentSegment
      (stripLeadingSlashes (Posix.normalize (js.pathnameOf req.url))) = true) :
    serveDir js fs req root = .error (.httpError 403 (STATUS_TEXT 403) .undef) := by
  rw [hcanon] at htrav
  have hcheck := hasParentSegment_code_check _ htrav
  rcases hm with h | h <;>
    simp [serveDir, h, hcanon, hslash, hcheck]

/-- Witness for C8's amended statement: a GET request with the canonical
traversal pathname `../x` is rejected with 403. -/
theorem serveDir_traversal_403_witness :
    serveDir c8wjs c8fs c8req "."
      = .error (.httpError 403 (STATUS_TEXT 403) .undef) := by
  have h := serveDir_traversal_403 c8wjs c8fs c8req "." (Or.inl rfl)
    rfl rfl (by decide)
  exact h

/-- Claim C9: for a GET or HEAD request, `serveDir` 308-redirects, without
serving content, to the normalized URL whenever normalization changes the
pathname, otherwise to the pathname with its trailing separator removed
whenever one is present; only a pathname already in canonical form
proceeds to file serving (shown by the third conjunct: in canonical form,
and past the traversal check, `serveDir` is exactly `serveFile` on the
joined path). -/
theorem serveDir_canonical_redirects (js : Js) (fs : FS) (req : Request)
    (root : String)
    (hm : req.method = "GET" ∨ req.method = "HEAD") :
    (Posix.normalize (js.pathnameOf req.url) ≠ js.pathnameOf req.url →
       serveDir js fs req root =
         .ok ⟨308,
              [("Location",
                js.withPathname req.url (Posix.normalize (js.pathnameOf req.url)))],
              false⟩)
  ∧ (Posix.normalize (js.pathnameOf req.url) = js.pathnameOf req.url →
     strEndsWith (js.pathnameOf req.url) "/" = true →
       serveDir js fs req root =
         .ok ⟨308,
              [("Location",
                js.withPathname req.url (strDropLast (js.pathnameOf req.url)))],
              false⟩)
  ∧ (Posix.normalize (js.pathnameOf req.url) = js.pathnameOf req.url →
     strEndsWith (js.pathnameOf req.url) "/" = false →
     (strStartsWith (stripLeadingSlashes (js.pathnameOf req.url)) ".."
        || strIncludes (stripLeadingSlashes (js.pathnameOf req.url)) "/..") = false →
       serveDir js fs req root =
         serveFile js fs req
           (Posix.joinTwo root (stripLeadingSlashes (js.pathnameOf req.url)))) := by
  refine ⟨?_, ?_, ?_⟩
  · intro hne
    rcases hm with h | h <;>
      simp [serveDir, h, hne]
  · intro hcanon hslash
    rcases hm with h | h <;>
      simp [serveDir, h, hcanon, hslash]
  · intro hcanon hslash hcheck
    rcases hm with h | h <;>
      simp [serveDir, h, hcanon, hslash, hcheck]

/-- Witness for C9: the pathname `/a//b` is changed by normalization, so a
GET request is 308-redirected to `/a/b` without content. -/
theorem serveDir_canonical_redirects_witness :
    serveDir c9js c9fs c9req "." = .ok ⟨308, [("Location", "/a/b")], false⟩ := by
  have h := (serveDir_canonical_redirects c9js c9fs c9req "." (Or.inl rfl)).1
    (by decide)
  exact h

/-- Claim C10: a file whose metadata carries no modification time has no
computable ETag either, so the not-modified decision is false for every
request — even one supplying both validators — and a GET request on such
a regular file is always served in full (status 200, body attached,
never 304). -/
theorem serveFile_no_validators_always_modified (js : Js) (fs : FS)
    (req : Request) (filePath : String) (fi : FileInfo)
    (hstat : fs filePath = .ok fi) (hfile : fi.isFile = true)
    (hmt : fi.mtime = none) (hget : req.method = "GET") :
    (∀ r : Request, isNotModified js r fi.mtime (eTag fi) = false)
  ∧ serveFile js fs req filePath
      = .ok ⟨200, serveFileHeaders js fi filePath, true⟩ := by
  have hnm : ∀ r : Request, isNotModified js r fi.mtime (eTag fi) = false := by
    intro r
    simp [isNotModified, eTag, hmt, truthyStr]
  refine ⟨hnm, ?_⟩
  simp only [serveFile, hget, hstat]
  simp [hfile, hnm req]

/-- Witness for C10: a GET request carrying both `If-None-Match` and
`If-Modified-Since` is still served in full when the file has no
modification time. -/
theorem serveFile_no_validators_always_modified_witness :
    isNotModified c10js c10req c10fi.mtime (eTag c10fi) = false
  ∧ serveFile c10js c10fs c10req "f"
      = .ok ⟨200, serveFileHeaders c10js c10fi "f", true⟩ := by
  have h := serveFile_no_validators_always_modified c10js c10fs c10req "f"
    c10fi rfl rfl rfl rfl
  exact ⟨h.1 c10req, h.2⟩
